import Mathlib

/-!
Verification of the human-in-the-loop agent (`src/agent.py`).

Shallow embedding of the agent's state machine (`HumanInLoopAgent.ask`,
`approve`, `reject`, `reset`), its code extractor (`_extract_code`, a
Python regex search for ```` ```(?:python)?\n(.*?)``` ```` with `DOTALL`),
and the subprocess code runner (`execute_code`).

Conventions:
* Text is modelled as `String` / `List Char`.
* The language-model gateway is an oracle: each operation that calls it
  takes a `GatewayOutcome` argument describing the completion it returns
  (or that the call raised), and reports whether the call was made.
* Python truthiness of `Optional[str]` (`None` and `""` are falsy) is
  `optTruthy`.
* The marker strings reproduce the literal characters stored in the
  source file (the file holds mojibake such as `‚úÖ` where a check mark
  was intended; we model the file as it is).
-/

namespace Agent

/-- The fenced-block delimiter ```` ``` ```` as a character list. -/
def fence : List Char := ['`', '`', '`']

/-- The characters of the optional `python` language tag. -/
def pyTag : List Char := ['p', 'y', 't', 'h', 'o', 'n']

/-- The newline character required after the opening delimiter. -/
def nlc : Char := '\n'

/-- Test that `p` is a leading segment of `l`. -/
def listStartsWith : List Char → List Char → Bool
  | [], _ => true
  | _ :: _, [] => false
  | p :: ps, c :: cs => p == c && listStartsWith ps cs

/-- Substring test for the fence delimiter: models Python `"```" in content`. -/
def containsFence : List Char → Bool
  | [] => false
  | c :: cs => listStartsWith fence (c :: cs) || containsFence cs

/-- Lazy scan of `(.*?)``` `: the shortest leading segment whose end is
followed by a closing fence; `none` when no closing fence occurs. -/
def innerUntilFence : List Char → Option (List Char)
  | [] => none
  | c :: cs =>
    if listStartsWith fence (c :: cs) then some []
    else (innerUntilFence cs).map (fun i => c :: i)

/-- Match the full pattern ```` ```(?:python)?\n(.*?)``` ```` at the head of
`l`, returning the lazy group. The `(?:python)?` alternative is greedy, but
the two alternatives start with distinct characters (`p` vs `\n`), so they
are mutually exclusive. -/
def matchAt (l : List Char) : Option (List Char) :=
  if listStartsWith fence l then
    let rest := l.drop 3
    if listStartsWith (pyTag ++ [nlc]) rest then innerUntilFence (rest.drop 7)
    else if listStartsWith [nlc] rest then innerUntilFence (rest.drop 1)
    else none
  else none

/-- Model of `re.search`: try the pattern at each position, leftmost match wins. -/
def searchFence : List Char → Option (List Char)
  | [] => none
  | c :: cs => (matchAt (c :: cs)).orElse (fun _ => searchFence cs)

/-- Python `str.strip()` whitespace characters. -/
def isPySpace (c : Char) : Bool :=
  c == ' ' || c == '\t' || c == '\n' || c == '\r' || c == '\x0b' || c == '\x0c'

/-- Python `str.strip()`: drop whitespace from both ends. -/
def pyStrip (l : List Char) : List Char :=
  ((l.dropWhile isPySpace).reverse.dropWhile isPySpace).reverse

/-- Model of `HumanInLoopAgent._extract_code`:
`re.search(r'```(?:python)?\n(.*?)```', text, re.DOTALL)` followed by
`.group(1).strip()` on a match, `None` otherwise. -/
def extract_code (text : String) : Option String :=
  (searchFence text.data).map (fun inner => String.mk (pyStrip inner))

/-- Code detection in `ask`/`reject`: `has_code = "```" in content`. -/
def hasCodeIn (content : String) : Bool := containsFence content.data

/-- The assignment `code_block = self._extract_code(content) if has_code else None`. -/
def detectedCodeBlock (content : String) : Option String :=
  if hasCodeIn content then extract_code content else none

example : extract_code "```python\nprint(1)\n```" = some "print(1)" := by decide
example : extract_code "```\n  hi \n``` tail" = some "hi" := by decide
example : extract_code "```js\ncode\n```" = none := by decide
example : extract_code "no code here" = none := by decide
example : extract_code "```python\nwhile True: pass" = none := by decide
example : hasCodeIn "```js\nx\n```" = true := by decide

/-! Agent state machine. -/

/-- Stages of `AgentStage` from the source. -/
inductive AgentStage
  | CHAT
  | APPROVAL
  | FEEDBACK
deriving DecidableEq, Repr

/-- Fields of the `AgentResponse` dataclass. -/
structure AgentResponse where
  content : String
  has_code : Bool := false
  code_block : Option String := none
  requires_approval : Bool := false
deriving DecidableEq, Repr

/-- Message roles used in the prompt lists. -/
inductive Role
  | system
  | human
  | ai
deriving DecidableEq, Repr

/-- A role-tagged message (`SystemMessage` / `HumanMessage` / `AIMessage`). -/
structure Msg where
  role : Role
  content : String
deriving DecidableEq, Repr

/-- The mutable fields of `HumanInLoopAgent`. -/
structure AgentState where
  chat_history : List Msg
  stage : AgentStage
  last_question : Option String
  last_response : Option String
  pending_code : Option String
deriving DecidableEq, Repr

/-- The state right after `__init__` (and after `reset`). -/
def initialState : AgentState :=
  { chat_history := []
    stage := .CHAT
    last_question := none
    last_response := none
    pending_code := none }

/-- Python truthiness of `Optional[str]`: `None` and `""` are falsy. -/
def optTruthy : Option String → Bool
  | none => false
  | some s => !(s == "")

/-- Literal `HumanInLoopAgent.SYSTEM_PROMPT`. -/
def SYSTEM_PROMPT : String :=
  "You are an expert AI assistant specialized in coding and answering questions.\n\nRULES:\n1. Give clear, accurate, and helpful responses\n2. When writing code, include comments and docstrings\n3. If user provides feedback, improve your response accordingly\n4. Be concise but thorough\n5. For code requests, always wrap code in ```python blocks"

/-- Python slice `self.chat_history[-10:]`. -/
def lastTen (l : List Msg) : List Msg := l.drop (l.length - 10)

/-- The prompt list built by `ask`: system prompt, the most recent ten
history messages, then the new question. -/
def buildAskMessages (st : AgentState) (question : String) : List Msg :=
  Msg.mk .system SYSTEM_PROMPT :: (lastTen st.chat_history ++ [Msg.mk .human question])

/-- The `revision_prompt` f-string built by `reject`. -/
def revisionPrompt (q r feedback : String) : String :=
  "\nThe user was NOT satisfied with your previous response.\n\nORIGINAL QUESTION: "
    ++ q ++ "\n\nYOUR PREVIOUS RESPONSE: " ++ r ++ "\n\nUSER FEEDBACK: "
    ++ feedback ++ "\n\nPlease provide an IMPROVED response based on their feedback.\n"

/-- The prompt list built by `reject` (no history context). -/
def buildRejectMessages (q r feedback : String) : List Msg :=
  [Msg.mk .system SYSTEM_PROMPT, Msg.mk .human (revisionPrompt q r feedback)]

/-- Oracle for one `self.llm.invoke(messages)` call: either the completion
text it returns, or the call raising (network/model failure). -/
inductive GatewayOutcome
  | success (content : String)
  | failure
deriving DecidableEq, Repr

/-- The error surfaced when the gateway call raises. -/
inductive GatewayError
  | gatewayError
deriving DecidableEq, Repr

deriving instance DecidableEq for Except

/-- Result of one agent operation: the state after the call, the returned
response (or the propagated gateway error), and the prompt passed to
`self.llm.invoke` (`none` when the operation made no gateway call). -/
structure OpOut where
  state : AgentState
  result : Except GatewayError AgentResponse
  sentToGateway : Option (List Msg)
deriving DecidableEq, Repr

/-- Whether the operation invoked the model gateway. -/
def OpOut.gatewayCalled (o : OpOut) : Bool := o.sentToGateway.isSome

/-- The literal check-mark marker stored in the source file
(mojibake bytes of a check mark). -/
def checkMark : String := "‚úÖ"

/-- The literal cross marker stored in the source file. -/
def crossMark : String := "‚ùå"

/-- The literal outbox marker on the stdout section of a run report. -/
def outMark : String := "üì§"

/-- The literal warning marker on the stderr section of a run report. -/
def warnMark : String := "‚ö†Ô∏è"

/-- Model of `HumanInLoopAgent.ask`. The gateway is invoked first; only on success
are `last_question`/`last_response` stored, code detected, and the stage
set to `APPROVAL` (in both the code and no-code branches). On failure the
exception propagates and no field was yet written. -/
def ask (st : AgentState) (question : String) (gw : GatewayOutcome) : OpOut :=
  let messages := buildAskMessages st question
  match gw with
  | .failure => ⟨st, .error .gatewayError, some messages⟩
  | .success content =>
    let has_code := hasCodeIn content
    let code_block := detectedCodeBlock content
    let st1 := { st with last_question := some question, last_response := some content }
    let st2 :=
      if optTruthy code_block then
        { st1 with pending_code := code_block, stage := .APPROVAL }
      else
        { st1 with stage := .APPROVAL }
    ⟨st2, .ok ⟨content, has_code, code_block, true⟩, some messages⟩

/-- Model of `HumanInLoopAgent.approve`: when a truthy question/answer pair is
pending it is appended to history (human then assistant); the stage
returns to `CHAT` and all pending fields are cleared; the confirmation
carries the pending code when that was truthy. -/
def approve (st : AgentState) : AgentState × String :=
  let st1 :=
    if optTruthy st.last_question && optTruthy st.last_response then
      { st with chat_history := st.chat_history ++
          [Msg.mk .human (st.last_question.getD ""), Msg.mk .ai (st.last_response.getD "")] }
    else st
  let approved_code := st1.pending_code
  let st2 := { st1 with
      stage := .CHAT
      pending_code := none
      last_question := none
      last_response := none }
  if optTruthy approved_code then
    (st2, checkMark ++ " Code approved!\n```python\n" ++ approved_code.getD "" ++ "\n```")
  else
    (st2, checkMark ++ " Response approved!")

/-- Model of `HumanInLoopAgent.reject`. Without a truthy pending pair it returns
early (no gateway call, state untouched). Otherwise the gateway is
invoked on the revision prompt; on success `last_response` is replaced,
`pending_code` is replaced only when the new draft has a truthy code
block, and the stage is set to `APPROVAL`. -/
def reject (st : AgentState) (feedback : String) (gw : GatewayOutcome) : OpOut :=
  if !(optTruthy st.last_question) || !(optTruthy st.last_response) then
    ⟨st, .ok ⟨"No previous response to revise.", false, none, false⟩, none⟩
  else
    let messages :=
      buildRejectMessages (st.last_question.getD "") (st.last_response.getD "") feedback
    match gw with
    | .failure => ⟨st, .error .gatewayError, some messages⟩
    | .success content =>
      let has_code := hasCodeIn content
      let code_block := detectedCodeBlock content
      let st1 := { st with last_response := some content }
      let st2 := if optTruthy code_block then { st1 with pending_code := code_block } else st1
      let st3 := { st2 with stage := .APPROVAL }
      ⟨st3, .ok ⟨content, has_code, code_block, true⟩, some messages⟩

/-- Model of `HumanInLoopAgent.reset`. -/
def reset (st : AgentState) : AgentState :=
  match st with
  | _ => initialState

/-- One operation of the public interface, with the gateway outcome the
call would observe. -/
inductive AgentOp
  | ask (question : String) (gw : GatewayOutcome)
  | approve
  | reject (feedback : String) (gw : GatewayOutcome)
  | reset

/-- The state reached by one operation (on a gateway failure the raised
error leaves the object's fields as they were). -/
def applyOp (st : AgentState) : AgentOp → AgentState
  | .ask q gw => (ask st q gw).state
  | .approve => (approve st).1
  | .reject f gw => (reject st f gw).state
  | .reset => reset st

/-! Code runner. -/

/-- The `timeout=` argument `execute_code` passes to `subprocess.run`. -/
def timeoutSeconds : Nat := 30

/-- Outcome of the attempt to write and run `_temp_exec.py`:
the subprocess completed with captured streams, it exceeded the timeout
(`subprocess.TimeoutExpired`), or the write/spawn raised (with the
exception text, and whether the temp file had been created by then). -/
inductive RunOutcome
  | ran (stdout stderr : String)
  | timedOut
  | failed (msg : String) (fileWritten : Bool)
deriving DecidableEq, Repr

/-- What `execute_code` leaves behind: the report string it returns and
whether `_temp_exec.py` still exists afterwards. -/
structure ExecResult where
  report : String
  artifactRemains : Bool
deriving DecidableEq, Repr

/-- Model of `execute_code`, as a function of the run outcome. The `try` body
formats stdout/stderr (`output or "... Executed (no output)"` uses Python
string truthiness); `except TimeoutExpired` and `except Exception` return
fixed reports; the `finally` clause removes the temp file whenever it
exists, on every path. -/
def execute_code (code : String) (outcome : RunOutcome) : ExecResult :=
  let fileWritten :=
    match outcome with
    | .ran _ _ => true
    | .timedOut => true
    | .failed _ written => written
  let report :=
    match outcome with
    | .ran out err =>
      let output :=
        (if !(out == "") then outMark ++ " Output:\n" ++ out else "")
          ++ (if !(err == "") then "\n" ++ warnMark ++ " Errors:\n" ++ err else "")
      if !(output == "") then output else checkMark ++ " Executed (no output)"
    | .timedOut => crossMark ++ " Timeout: Code took too long (30s limit)"
    | .failed msg _ => crossMark ++ " Error: " ++ msg
  let removedInFinally := fileWritten
  ⟨report, fileWritten && !removedInFinally⟩

/-! Theorems about the state machine. -/

/-- C1 counterexample: starting from a pending state, `reject ""` with a
successful gateway revision does invoke the gateway and does replace the
pending answer, instead of failing with an `InvalidInputError` and
leaving the state unchanged: the source never validates `feedback`. -/
theorem reject_empty_feedback_cex :
    (reject ⟨[], .APPROVAL, some "q0", some "draft0", none⟩ "" (.success "revised draft")).state.last_response
        = some "revised draft" ∧
    (reject ⟨[], .APPROVAL, some "q0", some "draft0", none⟩ "" (.success "revised draft")).gatewayCalled
        = true := by
  decide

/-- C1 (amended): `reject` performs no validation of `feedback`: with a
truthy pending question/answer pair, `reject` with empty feedback invokes
the model gateway like any other rejection, replaces the pending answer
with the new draft, and returns the new structured response; no
`InvalidInputError` is raised. -/
theorem reject_empty_feedback_proceeds (st : AgentState) (content : String)
    (hq : optTruthy st.last_question = true) (hr : optTruthy st.last_response = true) :
    (reject st "" (.success content)).gatewayCalled = true ∧
    (reject st "" (.success content)).state.last_question = st.last_question ∧
    (reject st "" (.success content)).state.last_response = some content ∧
    (reject st "" (.success content)).result =
      .ok ⟨content, hasCodeIn content, detectedCodeBlock content, true⟩ := by
  cases hd : optTruthy (detectedCodeBlock content) <;>
    simp [reject, hq, hr, hd, OpOut.gatewayCalled]

/-- Witness for C1 (amended) at a concrete pending state. -/
theorem reject_empty_feedback_proceeds_witness :
    (reject ⟨[], .APPROVAL, some "q1", some "a1", none⟩ "" (.success "shorter answer")).gatewayCalled = true ∧
    (reject ⟨[], .APPROVAL, some "q1", some "a1", none⟩ "" (.success "shorter answer")).state.last_question = (AgentState.mk [] .APPROVAL (some "q1") (some "a1") none).last_question ∧
    (reject ⟨[], .APPROVAL, some "q1", some "a1", none⟩ "" (.success "shorter answer")).state.last_response = some "shorter answer" ∧
    (reject ⟨[], .APPROVAL, some "q1", some "a1", none⟩ "" (.success "shorter answer")).result =
      .ok ⟨"shorter answer", hasCodeIn "shorter answer", detectedCodeBlock "shorter answer", true⟩ :=
  reject_empty_feedback_proceeds ⟨[], .APPROVAL, some "q1", some "a1", none⟩
    "shorter answer" (by decide) (by decide)

/-- C3 counterexample: when the successful revision contains no code
block, `reject` keeps the previous `pending_code` instead of replacing it
to reflect the new draft (whose extracted code is `none`). -/
theorem reject_stale_pending_code_cex :
    (reject ⟨[], .APPROVAL, some "q2", some "old answer", some "old_code"⟩ "make it shorter"
        (.success "A plain explanation.")).state.pending_code = some "old_code" ∧
    detectedCodeBlock "A plain explanation." = none := by
  decide

/-- C3 (amended): on a successful gateway revision from a truthy pending
state, `reject` replaces the pending answer with the new draft, leaves
the pending question and the history unchanged, stays in `APPROVAL`, and
returns a new structured response; `pending_code` is replaced only when
the new draft contains a truthy code block, and otherwise keeps its
previous value. -/
theorem reject_success_updates (st : AgentState) (feedback content : String)
    (hq : optTruthy st.last_question = true) (hr : optTruthy st.last_response = true) :
    (reject st feedback (.success content)).state.last_question = st.last_question ∧
    (reject st feedback (.success content)).state.last_response = some content ∧
    (reject st feedback (.success content)).state.stage = .APPROVAL ∧
    (reject st feedback (.success content)).state.chat_history = st.chat_history ∧
    (reject st feedback (.success content)).state.pending_code =
      (if optTruthy (detectedCodeBlock content) then detectedCodeBlock content
       else st.pending_code) ∧
    (reject st feedback (.success content)).result =
      .ok ⟨content, hasCodeIn content, detectedCodeBlock content, true⟩ := by
  cases hd : optTruthy (detectedCodeBlock content) <;>
    simp [reject, hq, hr, hd]

/-- Witness for C3 (amended) at a concrete pending state and revision. -/
theorem reject_success_updates_witness :
    (reject ⟨[], .APPROVAL, some "qx", some "ax", some "old"⟩ "shorter"
        (.success "```python\nprint(2)\n```")).state.last_question = (AgentState.mk [] .APPROVAL (some "qx") (some "ax") (some "old")).last_question ∧
    (reject ⟨[], .APPROVAL, some "qx", some "ax", some "old"⟩ "shorter"
        (.success "```python\nprint(2)\n```")).state.last_response = some "```python\nprint(2)\n```" ∧
    (reject ⟨[], .APPROVAL, some "qx", some "ax", some "old"⟩ "shorter"
        (.success "```python\nprint(2)\n```")).state.stage = .APPROVAL ∧
    (reject ⟨[], .APPROVAL, some "qx", some "ax", some "old"⟩ "shorter"
        (.success "```python\nprint(2)\n```")).state.chat_history = (AgentState.mk [] .APPROVAL (some "qx") (some "ax") (some "old")).chat_history ∧
    (reject ⟨[], .APPROVAL, some "qx", some "ax", some "old"⟩ "shorter"
        (.success "```python\nprint(2)\n```")).state.pending_code =
      (if optTruthy (detectedCodeBlock "```python\nprint(2)\n```") then detectedCodeBlock "```python\nprint(2)\n```"
       else (AgentState.mk [] .APPROVAL (some "qx") (some "ax") (some "old")).pending_code) ∧
    (reject ⟨[], .APPROVAL, some "qx", some "ax", some "old"⟩ "shorter"
        (.success "```python\nprint(2)\n```")).result =
      .ok ⟨"```python\nprint(2)\n```", hasCodeIn "```python\nprint(2)\n```",
           detectedCodeBlock "```python\nprint(2)\n```", true⟩ :=
  reject_success_updates ⟨[], .APPROVAL, some "qx", some "ax", some "old"⟩
    "shorter" "```python\nprint(2)\n```" (by decide) (by decide)

/-- C4 counterexample: `approve` on a state with nothing pending returns
the very same confirmation string as approving a genuine codeless pending
response, so the returned value is an ordinary approval confirmation, not
a distinguishable "nothing to approve" result. -/
theorem approve_nothing_pending_cex :
    (approve initialState).2 = checkMark ++ " Response approved!" ∧
    (approve ⟨[], .APPROVAL, some "qq", some "aa", none⟩).2 =
      checkMark ++ " Response approved!" := by
  decide

/-- C4 (amended): calling `approve` with no pending question, answer or
code is a no-op on the history and the pending fields and does not fail,
but it returns the generic confirmation (the literal stored in the
source for a check mark followed by " Response approved!"), the same
value as a successful approval of a codeless response, rather than a
distinct "nothing to approve" result. -/
theorem approve_nothing_pending (st : AgentState)
    (hq : st.last_question = none) (hr : st.last_response = none)
    (hc : st.pending_code = none) :
    approve st = ({ st with stage := .CHAT }, checkMark ++ " Response approved!") := by
  cases st
  simp only at hq hr hc
  subst hq hr hc
  simp [approve, optTruthy]

/-- Witness for C4 (amended) at the initial state. -/
theorem approve_nothing_pending_witness :
    approve initialState =
      ({ initialState with stage := .CHAT }, checkMark ++ " Response approved!") :=
  approve_nothing_pending initialState rfl rfl rfl

/-- C5: after a successful `ask` with non-empty question `q` and answer
`content`, `approve` appends exactly the two entries (human `q`, then
assistant `content`) to the history, clears all pending fields,
transitions to `CHAT`, and returns the code-carrying confirmation
whenever a truthy pending code was staged. -/
theorem ask_then_approve (st : AgentState) (q content : String)
    (hq : q ≠ "") (hc : content ≠ "") :
    (approve (ask st q (.success content)).state).1.chat_history
        = st.chat_history ++ [Msg.mk .human q, Msg.mk .ai content] ∧
    (approve (ask st q (.success content)).state).1.last_question = none ∧
    (approve (ask st q (.success content)).state).1.last_response = none ∧
    (approve (ask st q (.success content)).state).1.pending_code = none ∧
    (approve (ask st q (.success content)).state).1.stage = .CHAT ∧
    (approve (ask st q (.success content)).state).2 =
      (if optTruthy (ask st q (.success content)).state.pending_code then
        checkMark ++ " Code approved!\n```python\n"
          ++ ((ask st q (.success content)).state.pending_code.getD "") ++ "\n```"
      else checkMark ++ " Response approved!") := by
  have hq' : optTruthy (some q) = true := by simp [optTruthy, hq]
  have hc' : optTruthy (some content) = true := by simp [optTruthy, hc]
  cases hd : optTruthy (detectedCodeBlock content) <;>
    cases hp : optTruthy st.pending_code <;>
      simp [ask, approve, hd, hp, hq', hc']

/-- Witness for C5 with a code-bearing completion. -/
theorem ask_then_approve_witness :
    (approve (ask initialState "X" (.success "```python\nprint(1)\n```")).state).1.chat_history
        = initialState.chat_history ++ [Msg.mk .human "X", Msg.mk .ai "```python\nprint(1)\n```"] ∧
    (approve (ask initialState "X" (.success "```python\nprint(1)\n```")).state).1.last_question = none ∧
    (approve (ask initialState "X" (.success "```python\nprint(1)\n```")).state).1.last_response = none ∧
    (approve (ask initialState "X" (.success "```python\nprint(1)\n```")).state).1.pending_code = none ∧
    (approve (ask initialState "X" (.success "```python\nprint(1)\n```")).state).1.stage = .CHAT ∧
    (approve (ask initialState "X" (.success "```python\nprint(1)\n```")).state).2 =
      (if optTruthy (ask initialState "X" (.success "```python\nprint(1)\n```")).state.pending_code then
        checkMark ++ " Code approved!\n```python\n"
          ++ ((ask initialState "X" (.success "```python\nprint(1)\n```")).state.pending_code.getD "") ++ "\n```"
      else checkMark ++ " Response approved!") :=
  ask_then_approve initialState "X" "```python\nprint(1)\n```" (by decide) (by decide)

/-- C7: when the gateway call made by `ask` raises, the error propagates
to the caller as a gateway error and the whole conversation state —
stage, history and all pending fields — is left exactly as it was (the
source stores nothing before `self.llm.invoke`). -/
theorem ask_failure_state_unchanged (st : AgentState) (q : String) :
    (ask st q .failure).state = st ∧
    (ask st q .failure).result = .error .gatewayError ∧
    (ask st q .failure).gatewayCalled = true :=
  ⟨rfl, rfl, rfl⟩

/-- C8: per operation, history entries are created only by `approve`
(the new history is the old one followed by some appended tail); `ask`
and `reject` leave the history untouched, whatever the gateway does; and
`reset` returns the entire state to the initial one. Hence along any
sequence of operations, history entries are never mutated or removed
except by `reset`. -/
theorem history_append_only (st : AgentState) :
    (∀ q gw, (applyOp st (.ask q gw)).chat_history = st.chat_history) ∧
    (∀ f gw, (applyOp st (.reject f gw)).chat_history = st.chat_history) ∧
    (∃ tail, (applyOp st .approve).chat_history = st.chat_history ++ tail) ∧
    applyOp st .reset = initialState := by
  refine ⟨?_, ?_, ?_, rfl⟩
  · intro q gw
    cases gw with
    | failure => rfl
    | success content =>
      cases hd : optTruthy (detectedCodeBlock content) <;> simp [applyOp, ask, hd]
  · intro f gw
    by_cases hg : (!(optTruthy st.last_question) || !(optTruthy st.last_response)) = true
    · simp [applyOp, reject, hg]
    · cases gw with
      | failure => simp [applyOp, reject, hg]
      | success content =>
        cases hd : optTruthy (detectedCodeBlock content) <;>
          simp [applyOp, reject, hg, hd]
  · refine ⟨if optTruthy st.last_question && optTruthy st.last_response then
      [Msg.mk .human (st.last_question.getD ""), Msg.mk .ai (st.last_response.getD "")]
      else [], ?_⟩
    by_cases hg : (optTruthy st.last_question && optTruthy st.last_response) = true <;>
      cases hp : optTruthy st.pending_code <;>
        simp [applyOp, approve, hg, hp]

/-- C9 (on the outcome model): for every code string and every runner
outcome — completed process with any captured streams, timeout, or a
write/spawn failure — `execute_code` returns a non-empty report string
rather than raising, the timeout report is the fixed 30-second one, the
bound passed to the subprocess is 30 seconds, and the temporary source
file never remains, on any exit path. -/
theorem execute_code_boundary (code : String) (outcome : RunOutcome) :
    (execute_code code outcome).artifactRemains = false ∧
    (execute_code code outcome).report ≠ "" ∧
    (execute_code code .timedOut).report =
      crossMark ++ " Timeout: Code took too long (30s limit)" ∧
    timeoutSeconds = 30 := by
  refine ⟨?_, ?_, rfl, rfl⟩
  · cases outcome <;> simp [execute_code]
  · cases outcome with
    | ran out err =>
      by_cases ho : (out == "") = true <;> by_cases he : (err == "") = true <;>
        simp [execute_code, ho, he, outMark, warnMark, checkMark, String.ext_iff]
    | timedOut => simp [execute_code, crossMark, String.ext_iff]
    | failed msg written => simp [execute_code, crossMark, String.ext_iff]

/-- C10: a completion that contains the fence delimiter but no block the
regex can match (here a block tagged `js`) makes `ask` return a response
with `has_code = true` and `code_block = none`, and leaves `pending_code`
at whatever value it held before the call. -/
theorem ask_fence_without_match (st : AgentState) :
    (ask st "please write js" (.success "```js\nlet x = 1\n```")).result =
      .ok ⟨"```js\nlet x = 1\n```", true, none, true⟩ ∧
    (ask st "please write js" (.success "```js\nlet x = 1\n```")).state.pending_code =
      st.pending_code := by
  have hd : detectedCodeBlock "```js\nlet x = 1\n```" = none := by decide
  have hh : hasCodeIn "```js\nlet x = 1\n```" = true := by decide
  constructor
  · simp [ask, hd, hh, optTruthy]
  · simp [ask, hd, optTruthy]

/-! Lemmas about the extractor. -/

theorem listStartsWith_append (p rest : List Char) :
    listStartsWith p (p ++ rest) = true := by
  induction p with
  | nil => rfl
  | cons c cs ih => simp [listStartsWith, ih]

theorem listStartsWith_of_head_ne {c : Char} (l : List Char) (h : c ≠ '`') :
    listStartsWith fence (c :: l) = false := by
  have hb : ('`' == c) = false := by
    simp only [beq_eq_false_iff_ne]
    exact fun e => h e.symm
  simp [fence, listStartsWith, hb]

theorem startsWith_decompose {p l : List Char} (h : listStartsWith p l = true) :
    l = p ++ l.drop p.length := by
  induction p generalizing l with
  | nil => simp
  | cons c cs ih =>
    cases l with
    | nil => simp [listStartsWith] at h
    | cons d ds =>
      rw [listStartsWith, Bool.and_eq_true, beq_iff_eq] at h
      obtain ⟨rfl, h2⟩ := h
      simpa using ih h2

theorem innerUntilFence_sound {l inner : List Char}
    (h : innerUntilFence l = some inner) :
    ∃ post, l = inner ++ (fence ++ post) := by
  induction l generalizing inner with
  | nil => simp [innerUntilFence] at h
  | cons c cs ih =>
    by_cases hf : listStartsWith fence (c :: cs) = true
    · rw [innerUntilFence, if_pos hf] at h
      obtain rfl : ([] : List Char) = inner := Option.some.inj h
      exact ⟨(c :: cs).drop 3, by simpa [fence] using startsWith_decompose hf⟩
    · rw [innerUntilFence, if_neg hf, Option.map_eq_some'] at h
      obtain ⟨i, hi, rfl⟩ := h
      obtain ⟨post, hp⟩ := ih hi
      exact ⟨post, by simp [hp]⟩

theorem innerUntilFence_exact {inner : List Char} (rest : List Char)
    (hin : ∀ c ∈ inner, c ≠ '`') (hrest : listStartsWith fence rest = true) :
    innerUntilFence (inner ++ rest) = some inner := by
  induction inner with
  | nil =>
    cases rest with
    | nil => simp [fence, listStartsWith] at hrest
    | cons r rs => simp [innerUntilFence, hrest]
  | cons c cs ih =>
    have hc : c ≠ '`' := hin c (by simp)
    have hf : listStartsWith fence (c :: (cs ++ rest)) = false :=
      listStartsWith_of_head_ne _ hc
    rw [List.cons_append, innerUntilFence, if_neg (by simp [hf]),
      ih (fun x hx => hin x (by simp [hx]))]
    rfl

theorem matchAt_sound {l inner : List Char} (h : matchAt l = some inner) :
    ∃ tag post, (tag = [] ∨ tag = pyTag) ∧
      l = fence ++ (tag ++ ([nlc] ++ (inner ++ (fence ++ post)))) := by
  by_cases h1 : listStartsWith fence l = true
  case neg => rw [matchAt, if_neg h1] at h; exact absurd h (by simp)
  have hl : l = fence ++ l.drop 3 := by
    simpa [fence] using startsWith_decompose h1
  rw [matchAt, if_pos h1] at h
  by_cases h2 : listStartsWith (pyTag ++ [nlc]) (l.drop 3) = true
  · rw [if_pos h2] at h
    have h7 : l.drop 3 = (pyTag ++ [nlc]) ++ (l.drop 3).drop 7 := by
      simpa [pyTag] using startsWith_decompose h2
    obtain ⟨post, hp⟩ := innerUntilFence_sound h
    refine ⟨pyTag, post, Or.inr rfl, ?_⟩
    conv_lhs => rw [hl, h7, hp]
    simp
  · rw [if_neg h2] at h
    by_cases h3 : listStartsWith [nlc] (l.drop 3) = true
    · rw [if_pos h3] at h
      have h1' : l.drop 3 = [nlc] ++ (l.drop 3).drop 1 := by
        simpa using startsWith_decompose h3
      obtain ⟨post, hp⟩ := innerUntilFence_sound h
      refine ⟨[], post, Or.inl rfl, ?_⟩
      conv_lhs => rw [hl, h1', hp]
      simp
    · rw [if_neg h3] at h
      exact absurd h (by simp)

theorem searchFence_sound {l inner : List Char} (h : searchFence l = some inner) :
    ∃ pre tag post, (tag = [] ∨ tag = pyTag) ∧
      l = pre ++ (fence ++ (tag ++ ([nlc] ++ (inner ++ (fence ++ post))))) := by
  induction l with
  | nil => simp [searchFence] at h
  | cons c cs ih =>
    rw [searchFence] at h
    cases hm : matchAt (c :: cs) with
    | some i =>
      rw [hm] at h
      obtain rfl : i = inner := by simpa [Option.orElse] using h
      obtain ⟨tag, post, htag, hdec⟩ := matchAt_sound hm
      exact ⟨[], tag, post, htag, by simpa using hdec⟩
    | none =>
      rw [hm] at h
      simp only [Option.orElse, Option.none_orElse] at h
      obtain ⟨pre, tag, post, htag, hdec⟩ := ih (by simpa [Option.orElse] using h)
      exact ⟨c :: pre, tag, post, htag, by simp [hdec]⟩

theorem searchFence_none_of_no_fence {l : List Char} (h : containsFence l = false) :
    searchFence l = none := by
  induction l with
  | nil => rfl
  | cons c cs ih =>
    rw [containsFence, Bool.or_eq_false_iff] at h
    have hm : matchAt (c :: cs) = none := by rw [matchAt, if_neg (by simp [h.1])]
    rw [searchFence, hm]
    simpa [Option.orElse] using ih h.2

theorem searchFence_skip {pre : List Char} (rest : List Char)
    (hpre : ∀ c ∈ pre, c ≠ '`') :
    searchFence (pre ++ rest) = searchFence rest := by
  induction pre with
  | nil => rfl
  | cons c cs ih =>
    have hf : listStartsWith fence (c :: (cs ++ rest)) = false :=
      listStartsWith_of_head_ne _ (hpre c (by simp))
    have hm : matchAt (c :: (cs ++ rest)) = none := by
      rw [matchAt, if_neg (by simp [hf])]
    rw [List.cons_append, searchFence, hm]
    simpa [Option.orElse] using ih (fun x hx => hpre x (by simp [hx]))

theorem matchAt_exact {tag inner : List Char} (post : List Char)
    (htag : tag = [] ∨ tag = pyTag) (hin : ∀ c ∈ inner, c ≠ '`') :
    matchAt (fence ++ (tag ++ ([nlc] ++ (inner ++ (fence ++ post))))) = some inner := by
  have hclose : listStartsWith fence (fence ++ post) = true := listStartsWith_append _ _
  rcases htag with rfl | rfl
  · simp only [List.nil_append]
    have hfence : listStartsWith fence
        (fence ++ ([nlc] ++ (inner ++ (fence ++ post)))) = true :=
      listStartsWith_append _ _
    have hdrop : List.drop 3 (fence ++ ([nlc] ++ (inner ++ (fence ++ post))))
        = [nlc] ++ (inner ++ (fence ++ post)) := List.drop_left' rfl
    have hpy : listStartsWith (pyTag ++ [nlc])
        (nlc :: (inner ++ (fence ++ post))) = false := by
      simp [pyTag, nlc, listStartsWith]
    have hnl : listStartsWith [nlc]
        (nlc :: (inner ++ (fence ++ post))) = true := by
      simp [listStartsWith]
    have hd1 : List.drop 1 (nlc :: (inner ++ (fence ++ post)))
        = inner ++ (fence ++ post) := rfl
    rw [matchAt, if_pos hfence]
    rw [hdrop, if_neg (by simp [hpy])]
    simp only [List.singleton_append]
    rw [if_pos hnl, hd1]
    exact innerUntilFence_exact _ hin hclose
  · have hfence : listStartsWith fence
        (fence ++ (pyTag ++ ([nlc] ++ (inner ++ (fence ++ post))))) = true :=
      listStartsWith_append _ _
    have hdrop : List.drop 3 (fence ++ (pyTag ++ ([nlc] ++ (inner ++ (fence ++ post)))))
        = pyTag ++ ([nlc] ++ (inner ++ (fence ++ post))) := List.drop_left' rfl
    have hassoc : pyTag ++ ([nlc] ++ (inner ++ (fence ++ post)))
        = (pyTag ++ [nlc]) ++ (inner ++ (fence ++ post)) := by simp
    have hpy : listStartsWith (pyTag ++ [nlc])
        (pyTag ++ ([nlc] ++ (inner ++ (fence ++ post)))) = true := by
      rw [hassoc]; exact listStartsWith_append _ _
    have hd7 : List.drop 7 (pyTag ++ ([nlc] ++ (inner ++ (fence ++ post))))
        = inner ++ (fence ++ post) := by
      rw [hassoc]; exact List.drop_left' rfl
    rw [matchAt, if_pos hfence]
    rw [hdrop, if_pos hpy, hd7]
    exact innerUntilFence_exact _ hin hclose

theorem searchFence_head_match {l inner : List Char}
    (hm : matchAt l = some inner) (hne : l ≠ []) :
    searchFence l = some inner := by
  cases l with
  | nil => exact absurd rfl hne
  | cons c cs => rw [searchFence, hm]; rfl

/-! Theorems about the extractor claims. -/

/-- C2 counterexample: the completion consisting of exactly one
well-formed fenced block tagged `js` (trimmed inner text `code`) is not
matched by the extractor at all — the regex accepts only an absent tag or
the tag `python` — so the result is not independent of the language tag. -/
theorem extract_code_js_tag_cex :
    extract_code "```js\ncode\n```" = none ∧
    extract_code "```js\ncode\n```" ≠ some "code" := by
  decide

/-- C2 (amended): for every completion made of one well-formed fenced
block whose opening fence carries either no language tag or the tag
`python` (and whose surrounding prefix and inner text contain no
backtick), the extractor returns the trimmed inner text of the block,
and the result is the same for both accepted tags; completions whose
only block carries any other language tag are not matched. -/
theorem extract_code_single_block (pre tag inner post : List Char)
    (htag : tag = [] ∨ tag = pyTag)
    (hpre : ∀ c ∈ pre, c ≠ '`') (hin : ∀ c ∈ inner, c ≠ '`') :
    extract_code (String.mk
        (pre ++ (fence ++ (tag ++ ([nlc] ++ (inner ++ (fence ++ post)))))))
      = some (String.mk (pyStrip inner)) := by
  show (searchFence (pre ++ (fence ++ (tag ++ ([nlc] ++ (inner ++ (fence ++ post))))))).map
      (fun i => String.mk (pyStrip i)) = some (String.mk (pyStrip inner))
  rw [searchFence_skip _ hpre,
    searchFence_head_match (matchAt_exact post htag hin) (by simp [fence])]
  rfl

/-- Witness for C2 (amended): a concrete block with the `python` tag. -/
theorem extract_code_single_block_witness :
    extract_code (String.mk
        (("Answer: ".data) ++ (fence ++ (pyTag ++ ([nlc] ++ (("print(1) ".data) ++ (fence ++ (" done".data))))))))
      = some (String.mk (pyStrip ("print(1) ".data))) :=
  extract_code_single_block ("Answer: ".data) pyTag ("print(1) ".data) (" done".data)
    (Or.inr rfl) (by decide) (by decide)

/-- C6: (1) every completion without the fence delimiter is reported as
containing no code and the extractor yields no match; (2) every
successful extraction is anchored on an explicit closing delimiter: the
text decomposes as prefix, opening fence, accepted tag, newline, inner
group, closing fence and remainder, with the result the trimmed inner
group — an unterminated opening fence therefore never yields a match
consuming to end of text. -/
theorem extractor_no_block_and_anchored :
    (∀ t : String, containsFence t.data = false →
      hasCodeIn t = false ∧ extract_code t = none) ∧
    (∀ (t res : String), extract_code t = some res →
      ∃ pre tag inner post, (tag = [] ∨ tag = pyTag) ∧
        t.data = pre ++ (fence ++ (tag ++ ([nlc] ++ (inner ++ (fence ++ post))))) ∧
        res = String.mk (pyStrip inner)) := by
  constructor
  · intro t h
    refine ⟨h, ?_⟩
    show (searchFence t.data).map (fun i => String.mk (pyStrip i)) = none
    rw [searchFence_none_of_no_fence h]
    rfl
  · intro t res h
    rw [extract_code, Option.map_eq_some'] at h
    obtain ⟨i, hi, hf⟩ := h
    obtain ⟨pre, tag, post, htag, hdec⟩ := searchFence_sound hi
    exact ⟨pre, tag, i, post, htag, hdec, hf.symm⟩

/-- Witness for C6: a fence-free completion, and a matched completion
with its explicit decomposition around the closing delimiter. -/
theorem extractor_no_block_and_anchored_witness :
    (hasCodeIn "hello there" = false ∧ extract_code "hello there" = none) ∧
    (∃ pre tag inner post, (tag = [] ∨ tag = pyTag) ∧
      ("```\nhi\n```x").data = pre ++ (fence ++ (tag ++ ([nlc] ++ (inner ++ (fence ++ post))))) ∧
      "hi" = String.mk (pyStrip inner)) :=
  ⟨extractor_no_block_and_anchored.1 "hello there" (by decide),
   extractor_no_block_and_anchored.2 "```\nhi\n```x" "hi" (by decide)⟩

end Agent
